import Mathlib

/-!
Verification of the WebSocket event hub in `backend/app/websockets/events.py`.

The module under study is the `ConnectionManager` class (methods `connect`,
`disconnect`, `send_personal_message`, `broadcast`) together with the
`websocket_endpoint` coroutine that drives the per-connection lifecycle
(accept → register → welcome → receive loop → deregister).

Embedding conventions:
* a `WebSocket` is an opaque handle identified by a natural number;
* the registry (`self.active_connections`, a Python `list`) is a
  `List WebSocket`; `list.append` is `· ++ [ws]`, `list.remove` removes the
  first occurrence and raises `ValueError` when absent;
* network effects are parametrised: `acceptOk` says whether
  `websocket.accept()` raises, and a predicate `sendOk : WebSocket → Bool`
  says whether `websocket.send_json(...)` raises for a given connection
  during one broadcast;
* Python exceptions are `Except`/`Option PyError` values; a `try/except`
  block is a `match` on them.
-/

/-- A WebSocket connection handle.  The manager only ever compares handles
for identity, so a numeric identifier is a faithful model. -/
structure WebSocket where
  id : Nat
deriving DecidableEq, Repr

/-- Minimal JSON values: enough to express the frames the endpoint sends
(`{"type": "connected", ...}`, `{"type": "pong"}`, event envelopes). -/
inductive Json where
  | str : String → Json
  | obj : List (String × Json) → Json
deriving Repr

/-- The Python exceptions that can arise in this module.  `capacityExceeded`
is named by the error taxonomy of the specification; the code never raises it. -/
inductive PyError where
  | valueError        -- `list.remove(x)` when `x` is not in the list
  | sendError         -- an `Exception` raised by `websocket.send_json`
  | acceptError       -- an `Exception` raised by `websocket.accept`
  | capacityExceeded  -- named `CapacityExceeded` by the spec; absent from the code
deriving DecidableEq, Repr

namespace ConnectionManager

/-- Method `ConnectionManager.connect`:
`await websocket.accept()` then `self.active_connections.append(websocket)`.
`acceptOk` models whether the handshake succeeds; when it raises, the
exception propagates before the append runs, so the registry is returned
unchanged.  The `print` statement is logging only and is not modelled. -/
def connect (conns : List WebSocket) (ws : WebSocket) (acceptOk : Bool) :
    Option PyError × List WebSocket :=
  if acceptOk then (none, conns ++ [ws]) else (some .acceptError, conns)

/-- Method `ConnectionManager.disconnect`:
`self.active_connections.remove(websocket)`.  In Python, `list.remove` deletes
the first occurrence and raises `ValueError` when the element is absent. -/
def disconnect (conns : List WebSocket) (ws : WebSocket) :
    Except PyError (List WebSocket) :=
  if ws ∈ conns then .ok (conns.erase ws) else .error .valueError

/-- Model of `await connection.send_json(message)`: succeeds or raises depending on
the state of the peer, modelled by the predicate `sendOk`. -/
def send_json (sendOk : WebSocket → Bool) (c : WebSocket) :
    Except PyError Unit :=
  if sendOk c then .ok () else .error .sendError

/-- The `for connection in self.active_connections` loop of
`ConnectionManager.broadcast`: each send is wrapped in `try/except`, a
failure is printed (logged) and the loop continues.  Returns the list of
connections the message was delivered to and the list of connections whose
send raised, both in iteration order. -/
def broadcastLoop (sendOk : WebSocket → Bool) :
    List WebSocket → List WebSocket × List WebSocket
  | [] => ([], [])
  | c :: rest =>
    match send_json sendOk c with
    | .ok _ =>
      let (d, f) := broadcastLoop sendOk rest
      (c :: d, f)
    | .error _ =>
      let (d, f) := broadcastLoop sendOk rest
      (d, c :: f)

/-- Method `ConnectionManager.broadcast` as a transition on the manager state:
the method reads `self.active_connections` and never assigns to it, so the
registry component of the result is the input registry.  The second
component is the `(delivered, failed)` outcome of the loop.  The method
body catches every send exception, so the result type has no error case:
nothing propagates to the caller. -/
def broadcast (conns : List WebSocket) (sendOk : WebSocket → Bool) :
    List WebSocket × (List WebSocket × List WebSocket) :=
  (conns, broadcastLoop sendOk conns)

end ConnectionManager

/-- The welcome frame sent by `websocket_endpoint` right after `connect`. -/
def welcomeMsg : Json :=
  Json.obj [("type", Json.str "connected"),
            ("message", Json.str "Connected to CCTV monitoring events")]

/-- The `{"type": "pong"}` heartbeat acknowledgment. -/
def pongMsg : Json := Json.obj [("type", Json.str "pong")]

/-- One iteration of the receive loop of the endpoint on inbound text frame
`data`: `if data == "ping": await websocket.send_json({"type": "pong"})`;
any other frame falls through the `if` with no effect.  Returns the frames
sent in reply. -/
def handleFrame (data : String) : List Json :=
  if data = "ping" then [pongMsg] else []

/-- The `while True` receive loop of the endpoint, run over the inbound frames
received before the connection terminates.  The loop never touches the
registry; it only replies to heartbeats.  Returns the (unchanged) registry
and the outbound frames produced, in order. -/
def receiveLoop : List WebSocket → List String → List WebSocket × List Json
  | conns, [] => (conns, [])
  | conns, d :: rest =>
    let (c2, out) := receiveLoop conns rest
    (c2, handleFrame d ++ out)

/-- Why the receive loop terminated.  The loop body can only exit by an
exception: `WebSocketDisconnect` on client close, or any other `Exception`
(transport error, failed send).  Both `except` clauses of
`websocket_endpoint` call `manager.disconnect(websocket)`. -/
inductive TermReason where
  | clientDisconnect  -- `except WebSocketDisconnect`
  | otherError        -- `except Exception as e`
deriving DecidableEq, Repr

/-- Coroutine `websocket_endpoint`: `await manager.connect(websocket)`; on success,
send the welcome frame, serve the inbound `frames`, and when the loop ends
with `reason` run the corresponding `except` clause, which calls
`manager.disconnect(websocket)`.  Result: the final registry, an uncaught
exception if any (a failed `accept`, or a `ValueError` escaping the
`except` clause), and the outbound frames sent. -/
def websocket_endpoint (conns : List WebSocket) (ws : WebSocket)
    (acceptOk : Bool) (frames : List String) (reason : TermReason) :
    List WebSocket × Option PyError × List Json :=
  match ConnectionManager.connect conns ws acceptOk with
  | (some e, conns1) => (conns1, some e, [])
  | (none, conns1) =>
    let (_, replies) := receiveLoop conns1 frames
    let outbound := welcomeMsg :: replies
    match reason, ConnectionManager.disconnect conns1 ws with
    | _, .ok conns2 => (conns2, none, outbound)
    | _, .error e => (conns1, some e, outbound)

/-!
Interleaving model for broadcast under concurrent registry mutation.

`ConnectionManager.broadcast` iterates directly over
`self.active_connections` with `await` inside the loop body, so the event
loop may run `disconnect` between two sends.  The Python list iterator keeps
a cursor index: `__next__` yields `lst[i]` and increments `i`, stopping
when `i ≥ len(lst)`.  Removing an element that sits before the cursor
shifts later elements down, so the element at the cursor is skipped.
-/

/-- State of one broadcast in progress over the live registry: the current
`active_connections` list, the iterator cursor, and the connections the
event has been delivered to so far. -/
structure HubState where
  conns : List WebSocket
  idx : Nat
  delivered : List WebSocket
deriving DecidableEq, Repr

/-- An atomic step interleaved with the broadcast: either the broadcast
performs its next send, or the event loop runs `disconnect` for some
connection (only taken when the connection is present, the case the
endpoint exercises). -/
inductive HubAction where
  | sendNext
  | disconnectWs (ws : WebSocket)
deriving DecidableEq, Repr

/-- One step of the interleaved execution.  here `sendNext` follows the Python
list-iterator protocol over the *live* list; past the end it is a no-op
(the loop has ended). -/
def hubStep (s : HubState) : HubAction → HubState
  | .sendNext =>
    if h : s.idx < s.conns.length then
      { s with idx := s.idx + 1,
               delivered := s.delivered ++ [s.conns.get ⟨s.idx, h⟩] }
    else s
  | .disconnectWs ws =>
    if ws ∈ s.conns then { s with conns := s.conns.erase ws } else s

/-- Run a sequence of interleaved steps. -/
def hubRun (s : HubState) (acts : List HubAction) : HubState :=
  acts.foldl hubStep s

/-! Basic facts about the broadcast loop. -/

/-- The connections a broadcast delivers to are exactly the registered
connections whose send succeeds, in registry order. -/
theorem broadcastLoop_fst (sendOk : WebSocket → Bool) (conns : List WebSocket) :
    (ConnectionManager.broadcastLoop sendOk conns).1 = conns.filter sendOk := by
  induction conns with
  | nil => rfl
  | cons c rest ih =>
    simp only [ConnectionManager.broadcastLoop, ConnectionManager.send_json,
      List.filter_cons]
    cases h : sendOk c <;> simp [h, ih]

/-- The failure log of a broadcast holds exactly the registered connections
whose send raises, in registry order. -/
theorem broadcastLoop_snd (sendOk : WebSocket → Bool) (conns : List WebSocket) :
    (ConnectionManager.broadcastLoop sendOk conns).2 =
      conns.filter (fun c => !sendOk c) := by
  induction conns with
  | nil => rfl
  | cons c rest ih =>
    simp only [ConnectionManager.broadcastLoop, ConnectionManager.send_json,
      List.filter_cons]
    cases h : sendOk c <;> simp [h, ih]

/-- Every registered connection is attempted exactly once per broadcast:
deliveries and failures together account for the whole registry. -/
theorem broadcastLoop_length (sendOk : WebSocket → Bool) (conns : List WebSocket) :
    (ConnectionManager.broadcastLoop sendOk conns).1.length +
      (ConnectionManager.broadcastLoop sendOk conns).2.length = conns.length := by
  induction conns with
  | nil => rfl
  | cons c rest ih =>
    simp only [ConnectionManager.broadcastLoop, ConnectionManager.send_json]
    cases h : sendOk c <;> simp [h] <;> omega

/-- C1 (fan-out completeness): in a registry of distinct connections, every
connection registered when the broadcast begins and whose send does not
fail is delivered the event exactly once, and no connection is delivered
the event more than once in a single broadcast. -/
theorem C1_fanout_completeness (conns : List WebSocket) (sendOk : WebSocket → Bool)
    (c : WebSocket) (hnd : conns.Nodup) (hc : c ∈ conns) (hok : sendOk c = true) :
    ((ConnectionManager.broadcast conns sendOk).2.1).count c = 1 ∧
    ∀ d, ((ConnectionManager.broadcast conns sendOk).2.1).count d ≤ 1 := by
  have hfst : (ConnectionManager.broadcast conns sendOk).2.1 = conns.filter sendOk :=
    broadcastLoop_fst sendOk conns
  constructor
  · rw [hfst]
    exact List.count_eq_one_of_mem (hnd.filter sendOk)
      (List.mem_filter.2 ⟨hc, hok⟩)
  · intro d
    rw [hfst]
    exact List.nodup_iff_count_le_one.1 (hnd.filter sendOk) d

theorem C1_fanout_completeness_witness :
    ((ConnectionManager.broadcast [⟨0⟩, ⟨1⟩] (fun _ => true)).2.1).count ⟨0⟩ = 1 ∧
    ∀ d, ((ConnectionManager.broadcast [⟨0⟩, ⟨1⟩] (fun _ => true)).2.1).count d ≤ 1 :=
  C1_fanout_completeness [⟨0⟩, ⟨1⟩] (fun _ => true) ⟨0⟩ (by decide) (by decide) rfl

/-- C2 (failure isolation): if the send to `ci` raises during a broadcast,
every other registered connection whose own send succeeds is still
delivered the event, and every registered connection is attempted
(each lands either in the delivered list or in the failure log, so the two
partition the registry); the loop catches each exception, so nothing
propagates to the caller of `broadcast`. -/
theorem C2_failure_isolation (conns : List WebSocket) (sendOk : WebSocket → Bool)
    (ci cj : WebSocket) (hci : ci ∈ conns) (hfail : sendOk ci = false)
    (hcj : cj ∈ conns) (hne : cj ≠ ci) (hok : sendOk cj = true) :
    cj ∈ (ConnectionManager.broadcast conns sendOk).2.1 ∧
    (ConnectionManager.broadcast conns sendOk).2.1.length +
      (ConnectionManager.broadcast conns sendOk).2.2.length = conns.length := by
  constructor
  · have hfst : (ConnectionManager.broadcast conns sendOk).2.1 = conns.filter sendOk :=
      broadcastLoop_fst sendOk conns
    rw [hfst]
    exact List.mem_filter.2 ⟨hcj, hok⟩
  · exact broadcastLoop_length sendOk conns

theorem C2_failure_isolation_witness :
    (⟨1⟩ : WebSocket) ∈ (ConnectionManager.broadcast [⟨0⟩, ⟨1⟩] (fun w => w.id == 1)).2.1 ∧
    (ConnectionManager.broadcast [⟨0⟩, ⟨1⟩] (fun w => w.id == 1)).2.1.length +
      (ConnectionManager.broadcast [⟨0⟩, ⟨1⟩] (fun w => w.id == 1)).2.2.length =
      ([⟨0⟩, ⟨1⟩] : List WebSocket).length :=
  C2_failure_isolation [⟨0⟩, ⟨1⟩] (fun w => w.id == 1) ⟨0⟩ ⟨1⟩
    (by decide) rfl (by decide) (by decide) rfl

/-- C3 counterexample: with a single registered connection `w0` whose send
always fails, the first broadcast records the failure, yet `w0` is still
registered afterwards, and a second broadcast attempts delivery to `w0`
again (and fails again).  The `except` clause of the broadcast loop only
prints the error; it never calls `disconnect`. -/
theorem C3_counterexample :
    (⟨0⟩ : WebSocket) ∈ (ConnectionManager.broadcast [⟨0⟩] (fun _ => false)).2.2 ∧
    (⟨0⟩ : WebSocket) ∈ (ConnectionManager.broadcast [⟨0⟩] (fun _ => false)).1 ∧
    (⟨0⟩ : WebSocket) ∈
      (ConnectionManager.broadcast
        (ConnectionManager.broadcast [⟨0⟩] (fun _ => false)).1 (fun _ => false)).2.2 := by
  refine ⟨?_, ?_, ?_⟩ <;> decide

/-- C3 as amended: a send failure during a broadcast is caught and logged
in the failure list, but the failed connection is NOT deregistered — the
broadcast leaves the registry unchanged, so subsequent broadcasts attempt
delivery to the failed connection again. -/
theorem C3_no_failure_deregistration (conns : List WebSocket)
    (sendOk : WebSocket → Bool) (c : WebSocket)
    (hc : c ∈ conns) (hfail : sendOk c = false) :
    (ConnectionManager.broadcast conns sendOk).1 = conns ∧
    c ∈ (ConnectionManager.broadcast conns sendOk).2.2 := by
  refine ⟨rfl, ?_⟩
  have hsnd : (ConnectionManager.broadcast conns sendOk).2.2 =
      conns.filter (fun d => !sendOk d) := broadcastLoop_snd sendOk conns
  rw [hsnd]
  exact List.mem_filter.2 ⟨hc, by simp [hfail]⟩

theorem C3_no_failure_deregistration_witness :
    (ConnectionManager.broadcast [⟨0⟩, ⟨1⟩] (fun w => w.id == 1)).1 = [⟨0⟩, ⟨1⟩] ∧
    (⟨0⟩ : WebSocket) ∈ (ConnectionManager.broadcast [⟨0⟩, ⟨1⟩] (fun w => w.id == 1)).2.2 :=
  C3_no_failure_deregistration [⟨0⟩, ⟨1⟩] (fun w => w.id == 1) ⟨0⟩ (by decide) rfl

/-- C4 counterexample: there is no capacity bound at all — for every
candidate value of a configured maximum, registering a fresh connection
into a registry that already holds that many connections still succeeds
(`connect` returns no error, in particular not `capacityExceeded`), so no
choice of maximum makes `connect` fail exactly at capacity. -/
theorem C4_counterexample :
    ¬ ∃ maxConns : Nat, ∀ (conns : List WebSocket) (ws : WebSocket),
        ((ConnectionManager.connect conns ws true).1 = some .capacityExceeded ↔
          maxConns ≤ conns.length) := by
  rintro ⟨m, h⟩
  have hm := (h (List.replicate m ⟨0⟩) ⟨1⟩).2 (by simp)
  simp [ConnectionManager.connect] at hm

/-- C4 as amended: the code enforces no capacity limit.  Registration never
fails with `CapacityExceeded`; whenever the handshake succeeds the
connection is appended to the registry regardless of its size, and the only
way `connect` fails is a failed handshake, which leaves the registry
unchanged. -/
theorem C4_no_capacity_limit (conns : List WebSocket) (ws : WebSocket) :
    (∀ acceptOk, (ConnectionManager.connect conns ws acceptOk).1 ≠
      some .capacityExceeded) ∧
    ConnectionManager.connect conns ws true = (none, conns ++ [ws]) ∧
    ConnectionManager.connect conns ws false = (some .acceptError, conns) := by
  refine ⟨?_, rfl, rfl⟩
  intro acceptOk
  cases acceptOk <;> simp [ConnectionManager.connect]

theorem C4_no_capacity_limit_witness :
    (∀ acceptOk, (ConnectionManager.connect [⟨0⟩] ⟨1⟩ acceptOk).1 ≠
      some .capacityExceeded) ∧
    ConnectionManager.connect [⟨0⟩] ⟨1⟩ true = (none, [⟨0⟩] ++ [⟨1⟩]) ∧
    ConnectionManager.connect [⟨0⟩] ⟨1⟩ false = (some .acceptError, [⟨0⟩]) :=
  C4_no_capacity_limit [⟨0⟩] ⟨1⟩

/-- C5 counterexample: deregistering a connection that is not in the
registry is not a no-op — `list.remove` raises `ValueError`.  In
particular, deregistering twice raises on the second call instead of
behaving like deregistering once. -/
theorem C5_counterexample :
    ConnectionManager.disconnect ([] : List WebSocket) ⟨0⟩ = .error .valueError ∧
    ConnectionManager.disconnect [(⟨0⟩ : WebSocket)] ⟨0⟩ = .ok [] ∧
    ConnectionManager.disconnect (([⟨0⟩] : List WebSocket).erase ⟨0⟩) ⟨0⟩ =
      .error .valueError := by
  refine ⟨rfl, rfl, rfl⟩

/-- C5 as amended: deregistering a connection present in the registry
removes its first occurrence; deregistering a connection not (or no
longer) in the registry raises `ValueError` rather than completing as a
no-op. -/
theorem C5_remove_semantics (conns : List WebSocket) (ws : WebSocket) :
    (ws ∈ conns → ConnectionManager.disconnect conns ws = .ok (conns.erase ws)) ∧
    (ws ∉ conns → ConnectionManager.disconnect conns ws = .error .valueError) := by
  constructor
  · intro h
    simp [ConnectionManager.disconnect, h]
  · intro h
    simp [ConnectionManager.disconnect, h]

theorem C5_remove_semantics_witness :
    ConnectionManager.disconnect [(⟨0⟩ : WebSocket)] ⟨0⟩ = .ok ([⟨0⟩].erase ⟨0⟩) ∧
    ConnectionManager.disconnect ([] : List WebSocket) ⟨1⟩ = .error .valueError :=
  ⟨(C5_remove_semantics [⟨0⟩] ⟨0⟩).1 (by decide),
   (C5_remove_semantics [] ⟨1⟩).2 (by decide)⟩

/-! Per-connection order across a sequence of publishes.

A producer calling `publish` (the `broadcast_alert` / `broadcast_process_status`
/ `broadcast_camera_status` helpers all reduce to `manager.broadcast`) any
number of times in sequence: each call runs one broadcast over the registry
as it stands at that call, with that call's send outcomes. -/

/-- One `publish` call in a sequence: the registry at the time of the call,
the send outcomes during that broadcast, and the event published. -/
structure PublishStep where
  conns : List WebSocket
  sendOk : WebSocket → Bool
  event : Json

/-- The events connection `c` receives over a sequence of publish calls, in
arrival order: for each broadcast, one copy of the event per delivery of
that broadcast to `c`. -/
def deliveredTo (c : WebSocket) : List PublishStep → List Json
  | [] => []
  | s :: rest =>
    List.replicate (((ConnectionManager.broadcast s.conns s.sendOk).2.1).count c)
      s.event ++ deliveredTo c rest

/-- C6 (per-connection publish order): over any sequence of publish calls
issued one after the other (each returning before the next is invoked),
the events a connection `c` receives form a subsequence of the published
events in publish order — whenever `c` receives two events, it receives
them in the order they were published. -/
theorem C6_per_connection_order (c : WebSocket) (steps : List PublishStep)
    (h : ∀ s ∈ steps, s.conns.Nodup) :
    (deliveredTo c steps).Sublist (steps.map PublishStep.event) := by
  induction steps with
  | nil => simp [deliveredTo]
  | cons s rest ih =>
    have hcount : ((ConnectionManager.broadcast s.conns s.sendOk).2.1).count c ≤ 1 := by
      have hfst : (ConnectionManager.broadcast s.conns s.sendOk).2.1 =
          s.conns.filter s.sendOk := broadcastLoop_fst s.sendOk s.conns
      rw [hfst]
      exact List.nodup_iff_count_le_one.1
        ((h s (List.mem_cons_self s rest)).filter s.sendOk) c
    have ihr := ih (fun t ht => h t (List.mem_cons_of_mem s ht))
    rcases Nat.le_one_iff_eq_zero_or_eq_one.1 hcount with h0 | h1
    · simp only [deliveredTo, h0, List.replicate, List.nil_append, List.map_cons]
      exact ihr.cons s.event
    · simp only [deliveredTo, h1, List.replicate, List.singleton_append,
        List.map_cons]
      exact ihr.cons₂ s.event

theorem C6_per_connection_order_witness :
    (deliveredTo ⟨0⟩
        [⟨[⟨0⟩, ⟨1⟩], fun _ => true, Json.str "e1"⟩,
         ⟨[⟨0⟩], fun _ => true, Json.str "e2"⟩]).Sublist
      (List.map PublishStep.event
        [⟨[⟨0⟩, ⟨1⟩], fun _ => true, Json.str "e1"⟩,
         ⟨[⟨0⟩], fun _ => true, Json.str "e2"⟩]) :=
  C6_per_connection_order ⟨0⟩ _ (by
    intro s hs
    rcases List.mem_cons.1 hs with h1 | hs2
    · subst h1; decide
    · rcases List.mem_cons.1 hs2 with h2 | hs3
      · subst h2; decide
      · cases hs3)

/-- C7 counterexample: broadcast iterates the live list, so a concurrent
deregistration tears the view.  Registry `[A, B, C]`; the broadcast
delivers to `A` (cursor at 1), then `A` is deregistered (list becomes
`[B, C]`), then the next iteration reads index 1 — which is now `C` — and
the iterator is exhausted.  `B` was registered when the broadcast began,
was never deregistered, and never received the event. -/
theorem C7_counterexample :
    (⟨1⟩ : WebSocket) ∈
      (⟨[⟨0⟩, ⟨1⟩, ⟨2⟩], 0, []⟩ : HubState).conns ∧
    (⟨1⟩ : WebSocket) ∈
      (hubRun ⟨[⟨0⟩, ⟨1⟩, ⟨2⟩], 0, []⟩
        [.sendNext, .disconnectWs ⟨0⟩, .sendNext]).conns ∧
    (hubRun ⟨[⟨0⟩, ⟨1⟩, ⟨2⟩], 0, []⟩
        [.sendNext, .disconnectWs ⟨0⟩, .sendNext]).conns.length ≤
      (hubRun ⟨[⟨0⟩, ⟨1⟩, ⟨2⟩], 0, []⟩
        [.sendNext, .disconnectWs ⟨0⟩, .sendNext]).idx ∧
    (⟨1⟩ : WebSocket) ∉
      (hubRun ⟨[⟨0⟩, ⟨1⟩, ⟨2⟩], 0, []⟩
        [.sendNext, .disconnectWs ⟨0⟩, .sendNext]).delivered ∧
    (hubRun ⟨[⟨0⟩, ⟨1⟩, ⟨2⟩], 0, []⟩
        [.sendNext, .disconnectWs ⟨0⟩, .sendNext]).delivered = [⟨0⟩, ⟨2⟩] := by
  refine ⟨?_, ?_, ?_, ?_, ?_⟩ <;> decide

/-- Helper for the amended C7: running the broadcast cursor alone (no
interleaved registry mutation) walks the remaining suffix of the live
list. -/
theorem hubRun_sendNext_only (n : Nat) (s : HubState)
    (hn : s.idx + n = s.conns.length) :
    hubRun s (List.replicate n .sendNext) =
      ⟨s.conns, s.conns.length, s.delivered ++ s.conns.drop s.idx⟩ := by
  induction n generalizing s with
  | zero =>
    have hidx : s.idx = s.conns.length := by omega
    cases s with
    | mk conns idx delivered =>
      simp only [hubRun, List.replicate, List.foldl_nil]
      simp_all [List.drop_length]
  | succ n ih =>
    have hlt : s.idx < s.conns.length := by omega
    have hstep : hubStep s .sendNext =
        ⟨s.conns, s.idx + 1, s.delivered ++ [s.conns.get ⟨s.idx, hlt⟩]⟩ := by
      simp [hubStep, hlt]
    have hrec := ih ⟨s.conns, s.idx + 1, s.delivered ++ [s.conns.get ⟨s.idx, hlt⟩]⟩
      (by simp; omega)
    simp only [hubRun, List.replicate, List.foldl_cons] at *
    rw [hstep, hrec]
    have hdrop : s.conns.drop s.idx =
        s.conns.get ⟨s.idx, hlt⟩ :: s.conns.drop (s.idx + 1) := by
      rw [List.get_eq_getElem]
      exact List.drop_eq_getElem_cons hlt
    rw [hdrop, List.append_assoc, List.singleton_append]

/-- C7 as amended: broadcast iterates directly over the live connection
list, not over a point-in-time copy.  When no registration or
deregistration occurs during the broadcast, this coincides with snapshot
iteration — every connection registered at the start is visited exactly
once, in order — but a deregistration interleaved with the broadcast can
shift the cursor so that a still-registered connection is skipped. -/
theorem C7_live_list_iteration (conns : List WebSocket) :
    hubRun ⟨conns, 0, []⟩ (List.replicate conns.length .sendNext) =
      ⟨conns, conns.length, conns⟩ := by
  have h := hubRun_sendNext_only conns.length ⟨conns, 0, []⟩ (by simp)
  simpa using h

/-- C8 (heartbeat protocol): a received text frame equal to the literal
`"ping"` elicits exactly one `{"type": "pong"}` reply and leaves the
registry untouched; any other inbound frame elicits no reply, raises no
error, and changes no state. -/
theorem C8_heartbeat (conns : List WebSocket) (data : String) :
    (data = "ping" → receiveLoop conns [data] = (conns, [pongMsg])) ∧
    (data ≠ "ping" → receiveLoop conns [data] = (conns, [])) := by
  constructor
  · intro h
    subst h
    rfl
  · intro h
    simp [receiveLoop, handleFrame, h]

theorem C8_heartbeat_witness :
    receiveLoop [(⟨0⟩ : WebSocket)] ["ping"] = ([⟨0⟩], [pongMsg]) ∧
    receiveLoop [(⟨0⟩ : WebSocket)] ["hello"] = ([⟨0⟩], []) :=
  ⟨(C8_heartbeat [⟨0⟩] "ping").1 rfl, (C8_heartbeat [⟨0⟩] "hello").2 (by decide)⟩

/-- C9 (deregistration on termination): for a fresh connection, however its
receive loop ends — client-initiated disconnect or any other error — both
`except` clauses of the endpoint call `manager.disconnect`, so the final
registry is the original one: the connection is gone, no exception
escapes, and the invariant that only live connections are registered is
restored. -/
theorem C9_deregister_on_termination (conns : List WebSocket) (ws : WebSocket)
    (frames : List String) (reason : TermReason) (h : ws ∉ conns) :
    (websocket_endpoint conns ws true frames reason).1 = conns ∧
    ws ∉ (websocket_endpoint conns ws true frames reason).1 ∧
    (websocket_endpoint conns ws true frames reason).2.1 = none := by
  have hmem : ws ∈ conns ++ [ws] := by simp
  have herase : (conns ++ [ws]).erase ws = conns := by
    rw [List.erase_append_right _ h]
    simp
  have hrun : websocket_endpoint conns ws true frames reason =
      (conns, none, welcomeMsg :: (receiveLoop (conns ++ [ws]) frames).2) := by
    simp [websocket_endpoint, ConnectionManager.connect,
      ConnectionManager.disconnect, hmem, herase]
  rw [hrun]
  exact ⟨rfl, h, rfl⟩

theorem C9_deregister_on_termination_witness :
    (websocket_endpoint [⟨5⟩] ⟨0⟩ true ["ping"] .clientDisconnect).1 = [⟨5⟩] ∧
    (⟨0⟩ : WebSocket) ∉ (websocket_endpoint [⟨5⟩] ⟨0⟩ true ["ping"] .clientDisconnect).1 ∧
    (websocket_endpoint [⟨5⟩] ⟨0⟩ true ["ping"] .clientDisconnect).2.1 = none :=
  C9_deregister_on_termination [⟨5⟩] ⟨0⟩ ["ping"] .clientDisconnect (by decide)

/-- C10 (registration atomic on error): `connect` performs the handshake
(`accept`) before the append, so a failed handshake propagates an
exception and leaves the registry exactly as it was — the connection is
never added, hence can never be handed an event by a broadcast. -/
theorem C10_connect_atomic_on_error (conns : List WebSocket) (ws : WebSocket) :
    ConnectionManager.connect conns ws false = (some .acceptError, conns) ∧
    (ws ∉ conns → ws ∉ (ConnectionManager.connect conns ws false).2) := by
  refine ⟨rfl, ?_⟩
  intro h
  simpa [ConnectionManager.connect] using h

theorem C10_connect_atomic_on_error_witness :
    ConnectionManager.connect [⟨1⟩] ⟨0⟩ false = (some .acceptError, [⟨1⟩]) ∧
    ((⟨0⟩ : WebSocket) ∉ ([⟨1⟩] : List WebSocket) →
      (⟨0⟩ : WebSocket) ∉ (ConnectionManager.connect [⟨1⟩] ⟨0⟩ false).2) :=
  C10_connect_atomic_on_error [⟨1⟩] ⟨0⟩
